import Mathlib

/-!
Verification development for the ION shared-memory allocator
(drivers/gpu/ion/ion.c). Each definition is a shallow embedding of the
corresponding C function; heap backends (allocate, free, map_dma,
map_kernel, ...) are external collaborators and are modelled as oracle
parameters in environment structures. Machine unsigned integers are
modelled as Nat with explicit reduction mod 2^32 where overflow matters.
-/

namespace Ion

/-- Page size used by PAGE_ALIGN. -/
def PAGE_SIZE : Nat := 4096

/-- PAGE_ALIGN(len): round len up to a page boundary. -/
def PAGE_ALIGN (len : Nat) : Nat := ((len + PAGE_SIZE - 1) / PAGE_SIZE) * PAGE_SIZE

/-- errno value ENOMEM. -/
def ENOMEM : Int := 12
/-- errno value ENODEV. -/
def ENODEV : Int := 19
/-- errno value EINVAL. -/
def EINVAL : Int := 22

/-- Allocation flags relevant to ion.c: ION_FLAG_CACHED and
ION_FLAG_CACHED_NEEDS_SYNC, modelled as the two booleans ion.c tests. -/
structure IonFlags where
  cached : Bool
  needsSync : Bool
deriving DecidableEq

/-- ion_buffer_fault_user_mappings: the buffer is cached and does not
require explicit sync, so user mappings are installed fault-by-fault. -/
def ion_buffer_fault_user_mappings (f : IonFlags) : Bool :=
  f.cached && !f.needsSync

/-- Result of the heap map_dma operation as seen through IS_ERR_OR_NULL:
a valid table, a NULL pointer, or an ERR_PTR carrying a negative errno. -/
inductive MapDmaRes where
  | table
  | null
  | errp (e : Int)
deriving DecidableEq

/-- A C pointer-or-error return value (NULL, ERR_PTR(e), or a valid
object), as produced by ion_buffer_create and tested by ion_alloc. -/
inductive PtrRes where
  | null
  | err (e : Int)
  | ok
deriving DecidableEq

/-- Environment of one ion_buffer_create call: the outcomes of the
external collaborators it invokes. allocRet n is the return value of the
n-th heap allocate attempt (0 means success). -/
structure BufEnv where
  kzallocOk : Bool
  allocRet : Nat → Int
  deferFree : Bool
  mapDma : MapDmaRes
  vmallocOk : Bool

/-- Observable trace of one ion_buffer_create call: how many times the
heap allocate operation ran, whether the deferred free list was drained,
which teardown operations ran on the failure paths, whether the buffer
was indexed into the device rb-tree, and the returned pointer. -/
structure BufTrace where
  allocCalls : Nat
  drained : Bool
  heapFreed : Bool
  dmaUnmapped : Bool
  indexed : Bool
  result : PtrRes
deriving DecidableEq

/-- The part of ion_buffer_create after the heap allocate step has
succeeded: map_dma, then (for fault-mapped buffers) the page array
build, then indexing into dev->buffers. On map_dma failure the heap
free operation runs before the record is discarded; on vmalloc failure
the code jumps to label err1, which releases only the record itself
(heap free and unmap_dma are skipped -- label err is unreachable since
ret is 0 at the only goto err site). -/
def ion_buffer_create_mapped (env : BufEnv) (flags : IonFlags)
    (calls : Nat) (drained : Bool) : BufTrace :=
  match env.mapDma with
  | .null => ⟨calls, drained, true, false, false, .null⟩
  | .errp e => ⟨calls, drained, true, false, false, .err e⟩
  | .table =>
    if ion_buffer_fault_user_mappings flags && !env.vmallocOk then
      ⟨calls, drained, false, false, false, .err (-ENOMEM)⟩
    else
      ⟨calls, drained, false, false, true, .ok⟩

/-- ion_buffer_create: kzalloc the record, run the heap allocate
operation, and on failure retry exactly once after draining the free
list when the heap has ION_HEAP_FLAG_DEFER_FREE; then map to DMA and
index the buffer. -/
def ion_buffer_create (env : BufEnv) (flags : IonFlags) : BufTrace :=
  if !env.kzallocOk then
    ⟨0, false, false, false, false, .err (-ENOMEM)⟩
  else if env.allocRet 0 ≠ 0 then
    if !env.deferFree then
      ⟨1, false, false, false, false, .err (env.allocRet 0)⟩
    else if env.allocRet 1 ≠ 0 then
      ⟨2, true, false, false, false, .err (env.allocRet 1)⟩
    else
      ion_buffer_create_mapped env flags 2 true
  else
    ion_buffer_create_mapped env flags 1 false

/-- One heap of the device plist together with the environment of the
ion_buffer_create call that an allocation attempt on it would make. -/
structure AHeap where
  id : Nat
  benv : BufEnv

/-- The heap traversal loop of ion_alloc. The heaps list is the device
plist in traversal order (descending heap id). The buffer variable
starts as NULL and keeps the outcome of the last eligible heap tried;
the loop breaks on the first heap whose create returns a valid buffer.
Returns the traces of the eligible heaps tried and the final value of
the buffer variable. -/
def ion_alloc_loop (mask : Nat) (flags : IonFlags) :
    List AHeap → PtrRes → List (Nat × BufTrace) × PtrRes
  | [], acc => ([], acc)
  | h :: t, acc =>
    if 1 <<< h.id &&& mask ≠ 0 then
      let tr := ion_buffer_create h.benv flags
      match tr.result with
      | .ok => ([(h.id, tr)], .ok)
      | r =>
        let rest := ion_alloc_loop mask flags t r
        ((h.id, tr) :: rest.1, rest.2)
    else
      ion_alloc_loop mask flags t acc

/-- Environment of one ion_alloc call: the device heap list (in plist
traversal order) and whether the kzalloc inside ion_handle_create
succeeds. -/
structure AllocEnv where
  heaps : List AHeap
  handleAllocOk : Bool

/-- Observable trace of one ion_alloc call. -/
structure AllocTrace where
  alignedLen : Nat
  attempts : List (Nat × BufTrace)
  handleAdded : Bool
  result : Except Int Unit

/-- ion_alloc: reject zero length, page-align, walk the heap plist
skipping heaps not in heap_id_mask, then turn the final buffer variable
into the return value: NULL becomes -ENODEV, an ERR_PTR is propagated,
and a valid buffer gets a handle created and indexed into the client. -/
def ion_alloc (env : AllocEnv) (len _align : Nat) (mask : Nat)
    (flags : IonFlags) : AllocTrace :=
  if len = 0 then
    ⟨0, [], false, .error (-EINVAL)⟩
  else
    let len := PAGE_ALIGN len
    let r := ion_alloc_loop mask flags env.heaps .null
    match r.2 with
    | .null => ⟨len, r.1, false, .error (-ENODEV)⟩
    | .err e => ⟨len, r.1, false, .error e⟩
    | .ok =>
      if env.handleAllocOk then
        ⟨len, r.1, true, .ok ()⟩
      else
        ⟨len, r.1, false, .error (-ENOMEM)⟩

/-!
Kernel-mapping state machine: ion_buffer_kmap_get / ion_buffer_kmap_put
and the per-handle wrappers, plus the entry points ion_map_kernel and
ion_unmap_kernel, over a single client and a single buffer. The kmap
counters are C unsigned int fields, so increments and decrements reduce
mod 2^32.
-/

/-- Modulus of the C unsigned int kmap counters. -/
def U32 : Nat := 2 ^ 32

/-- Increment of a C unsigned int counter. On the representable range
(below 2^32) this agrees with addition mod 2^32; see wrapInc_eq_mod. -/
def wrapInc (n : Nat) : Nat := if n = U32 - 1 then 0 else n + 1

/-- Decrement of a C unsigned int counter: 0 wraps around to 2^32 - 1.
On the representable range this agrees with subtraction mod 2^32; see
wrapDec_eq_mod. -/
def wrapDec : Nat → Nat
  | 0 => U32 - 1
  | n + 1 => n

/-- State visible to the kernel-mapping functions: the client handle
rb-tree (as the list of handle ids it holds), the per-handle kmap_cnt
field of each handle, and the buffer fields kmap_cnt and vaddr, plus
counters of how many times the heap map_kernel and unmap_kernel
operations have been invoked. Address 0 stands for NULL. -/
structure MapState where
  handleSet : List Nat
  hkmap : Nat → Nat
  bkmap : Nat
  vaddr : Nat
  mapCalls : Nat
  unmapCalls : Nat

/-- Environment of the kernel-mapping functions: whether the heap
provides the optional operations, the address the n-th heap map_kernel
call returns (0 standing for NULL or an ERR_PTR), and the results of
the other optional heap operations. -/
structure MapEnv where
  hasMapKernel : Bool
  mapRet : Nat → Nat
  hasPhys : Bool
  physRet : Nat
  sgTable : Nat
  exportOk : Bool

/-- ion_buffer_kmap_get: if the buffer is already mapped, bump the
buffer count and return the cached vaddr; otherwise invoke the heap
map_kernel operation and, on success, cache the address and set the
count to one. Returns the address and the new state. -/
def ion_buffer_kmap_get (env : MapEnv) (s : MapState) : Nat × MapState :=
  if s.bkmap ≠ 0 then
    (s.vaddr, { s with bkmap := wrapInc s.bkmap })
  else
    let v := env.mapRet s.mapCalls
    let s1 := { s with mapCalls := s.mapCalls + 1 }
    if v = 0 then
      (v, s1)
    else
      (v, { s1 with vaddr := v, bkmap := wrapInc s1.bkmap })

/-- ion_handle_kmap_get for handle h: if the handle already holds
mappings, bump only the handle count and return the cached buffer
vaddr; otherwise delegate to ion_buffer_kmap_get and on success bump
the handle count. -/
def ion_handle_kmap_get (env : MapEnv) (s : MapState) (h : Nat) :
    Nat × MapState :=
  if s.hkmap h ≠ 0 then
    (s.vaddr, { s with hkmap := fun x => if x = h then wrapInc (s.hkmap h) else s.hkmap x })
  else
    let r := ion_buffer_kmap_get env s
    if r.1 = 0 then
      r
    else
      (r.1, { r.2 with hkmap := fun x => if x = h then wrapInc (r.2.hkmap h) else r.2.hkmap x })

/-- ion_buffer_kmap_put: decrement the buffer count; when it reaches
zero, invoke the heap unmap_kernel operation and clear the cached
vaddr. -/
def ion_buffer_kmap_put (s : MapState) : MapState :=
  let b := wrapDec s.bkmap
  if b = 0 then
    { s with bkmap := b, vaddr := 0, unmapCalls := s.unmapCalls + 1 }
  else
    { s with bkmap := b }

/-- ion_handle_kmap_put for handle h: decrement the handle count; when
it reaches zero, release the buffer-level mapping reference. -/
def ion_handle_kmap_put (s : MapState) (h : Nat) : MapState :=
  let k := wrapDec (s.hkmap h)
  let s1 := { s with hkmap := fun x => if x = h then k else s.hkmap x }
  if k = 0 then ion_buffer_kmap_put s1 else s1

/-- Result of a handle-taking entry point: the returned value, the new
state, and whether the function dereferenced handle->buffer. -/
structure KRes where
  ret : Except Int Nat
  s : MapState
  deref : Bool

/-- ion_map_kernel: validate the handle against the client handle set
and fail with -EINVAL before touching the buffer if it is absent; then
fail with -ENODEV if the heap lacks map_kernel; otherwise take a
handle-level kernel mapping. -/
def ion_map_kernel (env : MapEnv) (s : MapState) (h : Nat) : KRes :=
  if h ∈ s.handleSet then
    if env.hasMapKernel then
      let r := ion_handle_kmap_get env s h
      ⟨.ok r.1, r.2, true⟩
    else
      ⟨.error (-ENODEV), s, true⟩
  else
    ⟨.error (-EINVAL), s, false⟩

/-- ion_unmap_kernel: performs no handle validation; it reads
handle->buffer, takes the buffer lock, and releases one handle-level
kernel mapping unconditionally. -/
def ion_unmap_kernel (s : MapState) (h : Nat) : KRes :=
  ⟨.ok 0, ion_handle_kmap_put s h, true⟩

/-- Result of ion_free: whether a handle reference was dropped, whether
the invalid-handle warning fired, and whether the buffer was
dereferenced. -/
structure FreeRes where
  put : Bool
  warned : Bool
  deref : Bool
deriving DecidableEq

/-- ion_free: validate the handle; if absent from the client handle
set, warn and return without dropping a reference or touching the
buffer; otherwise drop one handle reference. -/
def ion_free (s : MapState) (h : Nat) : FreeRes :=
  if h ∈ s.handleSet then
    ⟨true, false, true⟩
  else
    ⟨false, true, false⟩

/-- ion_phys: validate the handle, failing with -EINVAL before touching
the buffer; then fail with -ENODEV if the heap lacks the phys
operation; otherwise return the physical address. -/
def ion_phys (env : MapEnv) (s : MapState) (h : Nat) : KRes :=
  if h ∈ s.handleSet then
    if env.hasPhys then
      ⟨.ok env.physRet, s, true⟩
    else
      ⟨.error (-ENODEV), s, true⟩
  else
    ⟨.error (-EINVAL), s, false⟩

/-- ion_sg_table: validate the handle, failing with -EINVAL before
touching the buffer; otherwise return the buffer sg_table. -/
def ion_sg_table (env : MapEnv) (s : MapState) (h : Nat) : KRes :=
  if h ∈ s.handleSet then
    ⟨.ok env.sgTable, s, true⟩
  else
    ⟨.error (-EINVAL), s, false⟩

/-- ion_share_dma_buf: validate the handle, failing with -EINVAL before
touching the buffer; otherwise take a buffer reference and export it as
a dma-buf (dropping the reference again if the export fails). -/
def ion_share_dma_buf (env : MapEnv) (s : MapState) (h : Nat) : KRes :=
  if h ∈ s.handleSet then
    if env.exportOk then
      ⟨.ok 1, s, true⟩
    else
      ⟨.error (-EINVAL), s, true⟩
  else
    ⟨.error (-EINVAL), s, false⟩

/-- Initial state of the C5 scenario: one freshly allocated buffer with
one validated handle (id 0), no kernel mappings anywhere. -/
def kmap_start : MapState := ⟨[0], fun _ => 0, 0, 0, 0, 0⟩

/-- The C5 scenario: MapKernel, MapKernel, UnmapKernel, UnmapKernel,
MapKernel on the single validated handle. -/
def kmap_roundtrip (env : MapEnv) : KRes × KRes × KRes × KRes × KRes :=
  let r1 := ion_map_kernel env kmap_start 0
  let r2 := ion_map_kernel env r1.s 0
  let u1 := ion_unmap_kernel r2.s 0
  let u2 := ion_unmap_kernel u1.s 0
  let r3 := ion_map_kernel env u2.s 0
  (r1, r2, u1, u2, r3)

/-!
Buffer release path: ion_buffer_put, ion_buffer_destroy (the kref
release callback), the synchronous teardown helper, and one iteration
of the per-heap deferred-free worker, over the device state of one
heap.
-/

/-- The buffer fields read by the release path. -/
structure Buf4 where
  id : Nat
  ref : Nat
  kmapCnt : Nat
  hasPages : Bool
  heapDefer : Bool
deriving DecidableEq

/-- Which teardown operations the synchronous destroy performed. -/
structure TearTrace where
  unmapKernelForced : Bool
  dmaUnmapped : Bool
  heapFreed : Bool
  pagesFreed : Bool
deriving DecidableEq

/-- Device-level state seen by the release path: the global buffer
index (dev->buffers, as ids), the free list of the owning heap, whether
the heap waitqueue has been woken, and the log of buffers already torn
down synchronously. -/
structure DevState where
  buffers : List Nat
  freeList : List Buf4
  woken : Bool
  torn : List (Nat × TearTrace)
deriving DecidableEq

/-- The function _ion_buffer_destroy of ion.c: warn and force-unmap if
the buffer still holds kernel mappings, unmap DMA, invoke the heap free
operation, release the page array when present, and free the record. -/
def ion_buffer_teardown (b : Buf4) : TearTrace :=
  ⟨b.kmapCnt != 0, true, true, b.hasPages⟩

/-- ion_buffer_destroy (the kref release callback): erase the buffer
from the global index; then, when the owning heap has
ION_HEAP_FLAG_DEFER_FREE, push the buffer onto the heap free list and
wake the worker, postponing teardown; otherwise tear down
synchronously. -/
def ion_buffer_destroy (st : DevState) (b : Buf4) : DevState :=
  let st1 := { st with buffers := st.buffers.erase b.id }
  if b.heapDefer then
    { st1 with freeList := b :: st1.freeList, woken := true }
  else
    { st1 with torn := (b.id, ion_buffer_teardown b) :: st1.torn }

/-- ion_buffer_put: kref_put, running ion_buffer_destroy exactly when
the reference count drops from one to zero. -/
def ion_buffer_put (st : DevState) (b : Buf4) : DevState × Nat :=
  if b.ref = 1 then
    (ion_buffer_destroy st b, 0)
  else
    (st, b.ref - 1)

/-- One draining iteration of the ion_heap_deferred_free worker after a
wakeup: pop the first free-list entry (entries are pushed at the head)
and tear it down synchronously; with an empty list the worker goes back
to waiting. -/
def ion_heap_deferred_free_step (st : DevState) : DevState :=
  match st.freeList with
  | [] => st
  | b :: rest =>
    { st with freeList := rest, torn := (b.id, ion_buffer_teardown b) :: st.torn }

/-!
Export/import bridge: ion_share_dma_buf wraps the buffer of a validated
handle in a dma-buf descriptor tagged with the dma_buf_ops of this
file; ion_import_dma_buf rejects foreign descriptors and otherwise
either bumps the existing handle of the target client for that buffer
or creates and indexes a new one.
-/

namespace Bridge

/-- A handle record: its identity, the buffer it wraps, and its
reference count. -/
structure Handle where
  id : Nat
  buffer : Nat
  ref : Nat
deriving DecidableEq

/-- A client as the bridge sees it: its handle set. -/
structure Client where
  handles : List Handle
deriving DecidableEq

/-- A dma-buf descriptor: whether its ops table is the dma_buf_ops of
this file, and the wrapped buffer. -/
structure DmaBuf where
  fromIon : Bool
  buf : Nat
deriving DecidableEq

/-- ion_handle_lookup: walk the client handle set and return the first
handle wrapping the given buffer, if any. -/
def ion_handle_lookup (c : Client) (b : Nat) : Option Handle :=
  c.handles.find? (fun h => h.buffer == b)

/-- kref_get on the first handle of the client wrapping buffer b. -/
def bumpFirst : List Handle → Nat → List Handle
  | [], _ => []
  | h :: t, b =>
    if h.buffer == b then { h with ref := h.ref + 1 } :: t
    else h :: bumpFirst t b

/-- ion_share_dma_buf: validate the handle against the client and fail
with -EINVAL if absent; otherwise export a descriptor wrapping exactly
the buffer of the handle, tagged with the ops of this bridge. -/
def ion_share_dma_buf (c : Client) (hid : Nat) : Except Int DmaBuf :=
  match c.handles.find? (fun h => h.id == hid) with
  | none => .error (-EINVAL)
  | some h => .ok ⟨true, h.buffer⟩

/-- ion_import_dma_buf: reject descriptors not produced by this bridge
with -EINVAL; otherwise, if the client already holds a handle for the
wrapped buffer, take a reference on that handle, else create a fresh
handle (with reference count one) wrapping the buffer and index it.
Returns the id of the resulting handle and the new client state. -/
def ion_import_dma_buf (c : Client) (d : DmaBuf) (newId : Nat) :
    Except Int Nat × Client :=
  if !d.fromIon then
    (.error (-EINVAL), c)
  else
    match ion_handle_lookup c d.buf with
    | some h => (.ok h.id, ⟨bumpFirst c.handles d.buf⟩)
    | none => (.ok newId, ⟨c.handles ++ [⟨newId, d.buf, 1⟩]⟩)

end Bridge

/-!
Handle-attachment accounting: buffer->handle_count is incremented by
ion_buffer_add_to_handle when a handle is created over the buffer and
decremented (guarded against going below zero) by
ion_buffer_remove_from_handle when a handle is destroyed.
ion_debug_heap_total divides each buffer size by its handle_count for
the proportional-share column. The world state keeps every client
handle set and the handle_count of every buffer.
-/

/-- A handle as the accounting sees it: its identity and its buffer. -/
structure HRec where
  hid : Nat
  buf : Nat
deriving DecidableEq

/-- World state: the handle set of each client, and buffer->handle_count
for each buffer id. -/
structure World where
  clients : List (List HRec)
  hcount : Nat → Nat

/-- The empty world: no clients, every handle count zero. -/
def World.empty : World := ⟨[], fun _ => 0⟩

/-- ion_buffer_add_to_handle: increment handle_count of buffer b. -/
def ion_buffer_add_to_handle (w : World) (b : Nat) : World :=
  { w with hcount := fun x => if x = b then w.hcount b + 1 else w.hcount x }

/-- ion_buffer_remove_from_handle: decrement handle_count of buffer b,
guarded so that it never goes below zero (WARN_ON plus the check
handle_count greater than zero in ion.c). -/
def ion_buffer_remove_from_handle (w : World) (b : Nat) : World :=
  { w with hcount := fun x =>
      if x = b then (if 0 < w.hcount b then w.hcount b - 1 else w.hcount b)
      else w.hcount x }

/-- Prepend a handle to the handle set of client ci. -/
def addToClient : List (List HRec) → Nat → HRec → List (List HRec)
  | [], _, _ => []
  | c :: cs, 0, h => (h :: c) :: cs
  | c :: cs, n + 1, h => c :: addToClient cs n h

/-- Remove the first handle with the given id from a handle set,
returning it and the rest. -/
def removeFirst : List HRec → Nat → Option (HRec × List HRec)
  | [], _ => none
  | h :: t, hid =>
    if h.hid = hid then some (h, t)
    else (removeFirst t hid).map (fun r => (r.1, h :: r.2))

/-- Remove the first handle with the given id from the handle set of
client ci. -/
def removeFromClient : List (List HRec) → Nat → Nat → Option HRec × List (List HRec)
  | [], _, _ => (none, [])
  | c :: cs, 0, hid =>
    match removeFirst c hid with
    | none => (none, c :: cs)
    | some r => (some r.1, r.2 :: cs)
  | c :: cs, n + 1, hid =>
    let r := removeFromClient cs n hid
    (r.1, c :: r.2)

/-- ion_handle_create followed by ion_handle_add, as performed by
ion_alloc and by an import that finds no existing handle: increment the
handle_count of the buffer and index the new handle into client ci. -/
def ion_handle_create_add (w : World) (ci : Nat) (h : HRec) : World :=
  let w1 := ion_buffer_add_to_handle w h.buf
  { w1 with clients := addToClient w1.clients ci h }

/-- ion_handle_destroy reached through a validated ion_free: erase the
handle from the client rb-tree, then run ion_buffer_remove_from_handle
on its buffer. A handle id not present in the client leaves the world
unchanged (ion_free validates before putting). -/
def ion_handle_destroy (w : World) (ci hid : Nat) : World :=
  match removeFromClient w.clients ci hid with
  | (none, _) => w
  | (some h, cs) => ion_buffer_remove_from_handle { w with clients := cs } h.buf

/-- Worlds reachable from the empty world by client creation, handle
creation (into an existing client), and validated handle destruction.
An import that finds an existing handle only bumps a handle kref and
leaves this state unchanged. -/
inductive Reach : World → Prop
  | init : Reach World.empty
  | newClient {w} : Reach w → Reach { w with clients := w.clients ++ [[]] }
  | create {w} (ci : Nat) (h : HRec) (hci : ci < w.clients.length) :
      Reach w → Reach (ion_handle_create_add w ci h)
  | destroy {w} (ci hid : Nat) :
      Reach w → Reach (ion_handle_destroy w ci hid)

/-- Number of handles wrapping buffer b in one handle set. -/
def countBufL (l : List HRec) (b : Nat) : Nat :=
  l.countP (fun h => h.buf == b)

/-- Number of handles wrapping buffer b across all clients. -/
def countBufW : List (List HRec) → Nat → Nat
  | [], _ => 0
  | c :: cs, b => countBufL c b + countBufW cs b

/-- Accounting loop body of ion_debug_heap_total over one client handle
set: for each handle whose buffer lives in heap id, add the buffer size
to size, the size divided by handle_count to pss, and the size to
shared when handle_count exceeds one. Returns (size, shared, pss). -/
def ion_debug_heap_total_go (w : World) (bufSize heapOf : Nat → Nat) (id : Nat) :
    List HRec → Nat × Nat × Nat
  | [] => (0, 0, 0)
  | h :: t =>
    let r := ion_debug_heap_total_go w bufSize heapOf id t
    if heapOf h.buf == id then
      (r.1 + bufSize h.buf,
       (if 1 < w.hcount h.buf then r.2.1 + bufSize h.buf else r.2.1),
       r.2.2 + bufSize h.buf / w.hcount h.buf)
    else r

/-- ion_debug_heap_total for client ci and heap id: walk the client
handle set accumulating (size, shared, pss). -/
def ion_debug_heap_total (w : World) (bufSize heapOf : Nat → Nat)
    (ci id : Nat) : Nat × Nat × Nat :=
  ion_debug_heap_total_go w bufSize heapOf id (w.clients.getD ci [])

/-- The divisors that ion_debug_heap_total uses in its per-buffer
proportional-share divisions for client ci and heap id. -/
def pssDivisorsUsed (w : World) (heapOf : Nat → Nat) (ci id : Nat) : List Nat :=
  ((w.clients.getD ci []).filter (fun h => heapOf h.buf == id)).map
    (fun h => w.hcount h.buf)

/-- The handle-count invariant maintained by ion_buffer_add_to_handle
and ion_buffer_remove_from_handle: for every buffer, handle_count
equals the number of handles wrapping it across all clients. -/
def Inv (w : World) : Prop := ∀ b, w.hcount b = countBufW w.clients b

/-!
Theorems. Helper lemmas come first, then one theorem per claim with its
witness or counterexample.
-/

/-- The mapped phase never changes the allocate-call count it is
given. -/
theorem ion_buffer_create_mapped_allocCalls (env : BufEnv) (flags : IonFlags)
    (c : Nat) (d : Bool) : (ion_buffer_create_mapped env flags c d).allocCalls = c := by
  unfold ion_buffer_create_mapped
  cases env.mapDma with
  | table =>
    dsimp only
    split <;> rfl
  | null => rfl
  | errp e => rfl

/-- The mapped phase never changes the drained flag it is given. -/
theorem ion_buffer_create_mapped_drained (env : BufEnv) (flags : IonFlags)
    (c : Nat) (d : Bool) : (ion_buffer_create_mapped env flags c d).drained = d := by
  unfold ion_buffer_create_mapped
  cases env.mapDma with
  | table =>
    dsimp only
    split <;> rfl
  | null => rfl
  | errp e => rfl

/-- The heap traversal loop attempts no heap and keeps the incoming
buffer value when no heap id in the list is set in the mask. -/
theorem ion_alloc_loop_no_eligible (mask : Nat) (flags : IonFlags)
    (heaps : List AHeap) (acc : PtrRes)
    (hm : ∀ h ∈ heaps, 1 <<< h.id &&& mask = 0) :
    ion_alloc_loop mask flags heaps acc = ([], acc) := by
  induction heaps with
  | nil => rfl
  | cons h t ih =>
    have h0 : 1 <<< h.id &&& mask = 0 := hm h (List.mem_cons_self h t)
    have ht : ∀ x ∈ t, 1 <<< x.id &&& mask = 0 := fun x hx => hm x (List.mem_cons_of_mem h hx)
    simp [ion_alloc_loop, h0, ih ht]

/-- C8: for every heap_id_mask, every alignment and every flags value,
an allocation request with length zero fails with -EINVAL and touches
no state: no heap is attempted and no handle is created. -/
theorem ion_alloc_zero_length (env : AllocEnv) (align mask : Nat) (flags : IonFlags) :
    ion_alloc env 0 align mask flags = ⟨0, [], false, .error (-EINVAL)⟩ := rfl

/-- C2 counterexample: with one registered heap of id 1 and a mask
naming only heap id 2, ion_alloc fails with -ENODEV, not with the
invalid-argument code -EINVAL the claim states. -/
theorem ion_alloc_unmatched_mask_enodev :
    (ion_alloc ⟨[⟨1, ⟨true, fun _ => 0, false, .table, true⟩⟩], true⟩
        4096 0 4 ⟨false, false⟩).result = .error (-ENODEV) ∧
    (-ENODEV : Int) ≠ -EINVAL := by
  exact ⟨rfl, by decide⟩

/-- C2 amended: for every allocation request whose heap_id_mask
contains no heap id registered in the device heap list, ion_alloc fails
with the no-device condition -ENODEV and creates no partial state: no
buffer-create attempt is made (so nothing is indexed) and no handle is
created. -/
theorem ion_alloc_no_matching_heap (env : AllocEnv) (len align mask : Nat)
    (flags : IonFlags) (hlen : len ≠ 0)
    (hm : ∀ h ∈ env.heaps, 1 <<< h.id &&& mask = 0) :
    (ion_alloc env len align mask flags).result = .error (-ENODEV) ∧
    (ion_alloc env len align mask flags).attempts = [] ∧
    (ion_alloc env len align mask flags).handleAdded = false := by
  unfold ion_alloc
  rw [if_neg hlen, ion_alloc_loop_no_eligible mask flags env.heaps .null hm]
  exact ⟨rfl, rfl, rfl⟩

/-- C2 witness: a concrete device with one heap of id 1, allocating
4096 bytes with mask 4. -/
theorem ion_alloc_no_matching_heap_witness :
    (ion_alloc ⟨[⟨1, ⟨true, fun _ => 0, false, .table, true⟩⟩], true⟩
        4096 0 4 ⟨false, false⟩).attempts = [] :=
  (ion_alloc_no_matching_heap ⟨[⟨1, ⟨true, fun _ => 0, false, .table, true⟩⟩], true⟩
    4096 0 4 ⟨false, false⟩ (by decide) (by decide)).2.1

/-- C7: when the heap allocate operation fails, a heap with the
deferred-free capability has its free list force-drained and the
allocate retried exactly once (two allocate calls in total), while a
heap without the capability is not retried: its create attempt ends
after one allocate call with that failure, with no drain. -/
theorem ion_buffer_create_retry (env : BufEnv) (flags : IonFlags)
    (hk : env.kzallocOk = true) (hf : env.allocRet 0 ≠ 0) :
    (env.deferFree = true →
       (ion_buffer_create env flags).allocCalls = 2 ∧
       (ion_buffer_create env flags).drained = true) ∧
    (env.deferFree = false →
       ion_buffer_create env flags = ⟨1, false, false, false, false, .err (env.allocRet 0)⟩) := by
  constructor
  · intro hd
    unfold ion_buffer_create
    rw [hk, hd]
    rw [if_neg (by simp), if_pos hf, if_neg (by simp)]
    by_cases h1 : env.allocRet 1 ≠ 0
    · rw [if_pos h1]
      exact ⟨rfl, rfl⟩
    · rw [if_neg h1]
      exact ⟨ion_buffer_create_mapped_allocCalls .., ion_buffer_create_mapped_drained ..⟩
  · intro hd
    unfold ion_buffer_create
    rw [hk, hd]
    rw [if_neg (by simp), if_pos hf, if_pos (by simp)]

/-- C7 witness: a deferred-free heap whose first allocate fails and
whose retry succeeds performs exactly two allocate calls with a drain
in between. -/
theorem ion_buffer_create_retry_witness :
    (ion_buffer_create ⟨true, fun n => if n = 0 then -12 else 0, true, .table, true⟩
        ⟨false, false⟩).allocCalls = 2 ∧
    (ion_buffer_create ⟨true, fun n => if n = 0 then -12 else 0, true, .table, true⟩
        ⟨false, false⟩).drained = true :=
  (ion_buffer_create_retry ⟨true, fun n => if n = 0 then -12 else 0, true, .table, true⟩
    ⟨false, false⟩ rfl (by decide)).1 rfl

/-- C3: at the failing input (heap allocate succeeds, map_dma returns a
table, the buffer flags request fault-driven user mappings, and the
page-array vmalloc fails) ion_buffer_create discards the record without
invoking the heap free operation or unmap_dma, leaking the heap
allocation, while the map_dma failure path does invoke heap free; in
both cases the buffer is never indexed. -/
theorem ion_buffer_create_page_array_failure :
    ion_buffer_create ⟨true, fun _ => 0, false, .table, false⟩ ⟨true, false⟩ =
      ⟨1, false, false, false, false, .err (-ENOMEM)⟩ ∧
    (ion_buffer_create ⟨true, fun _ => 0, false, .errp (-EINVAL), true⟩ ⟨true, false⟩).heapFreed
      = true := by
  exact ⟨rfl, rfl⟩

/-- The value of U32 as a numeral. -/
theorem U32_eq : U32 = 4294967296 := by norm_num [U32]

/-- On the representable range of a C unsigned int, wrapInc is addition
of one mod 2^32. -/
theorem wrapInc_eq_mod (n : Nat) (h : n < U32) : wrapInc n = (n + 1) % U32 := by
  unfold wrapInc
  rw [U32_eq] at h ⊢
  split
  · omega
  · omega

/-- On the representable range of a C unsigned int, wrapDec is
subtraction of one mod 2^32. -/
theorem wrapDec_eq_mod (n : Nat) (h : n < U32) : wrapDec n = (n + (U32 - 1)) % U32 := by
  rw [U32_eq] at h ⊢
  cases n with
  | zero =>
    show 2 ^ 32 - 1 = (0 + (4294967296 - 1)) % 4294967296
    norm_num
  | succ m =>
    show m = (m + 1 + (4294967296 - 1)) % 4294967296
    omega

/-- wrapDec wraps the counter value zero around to 2^32 - 1. -/
theorem wrapDec_zero : wrapDec 0 = U32 - 1 := rfl

/-- The wrapped-around counter value is nonzero. -/
theorem U32_sub_one_ne_zero : U32 - 1 ≠ 0 := by decide

/-- ion_handle_kmap_put leaves hkmap at h equal to the wrapped
decrement of its old value, whichever branch is taken. -/
theorem ion_handle_kmap_put_hkmap (s : MapState) (h : Nat) :
    (ion_handle_kmap_put s h).hkmap h = wrapDec (s.hkmap h) := by
  by_cases hk : wrapDec (s.hkmap h) = 0
  · simp only [ion_handle_kmap_put, ion_buffer_kmap_put, hk, if_pos]
    split <;> simp
  · simp [ion_handle_kmap_put, ion_buffer_kmap_put, hk]

/-- C9: calling ion_unmap_kernel on a validated handle whose kmap_cnt
is zero is not rejected: it returns normally, the unsigned handle
counter wraps around to 2^32 - 1, and the heap unmap-kernel operation
is not invoked (buffer-level kmap state is untouched). -/
theorem ion_unmap_kernel_underflow_wraps (s : MapState) (h : Nat)
    (_hv : h ∈ s.handleSet) (h0 : s.hkmap h = 0) :
    (ion_unmap_kernel s h).ret = .ok 0 ∧
    (ion_unmap_kernel s h).s.hkmap h = U32 - 1 ∧
    (ion_unmap_kernel s h).s.unmapCalls = s.unmapCalls ∧
    (ion_unmap_kernel s h).s.bkmap = s.bkmap ∧
    (ion_unmap_kernel s h).s.vaddr = s.vaddr := by
  unfold ion_unmap_kernel ion_handle_kmap_put
  dsimp only
  rw [h0, wrapDec_zero, if_neg U32_sub_one_ne_zero]
  exact ⟨rfl, by simp, rfl, rfl, rfl⟩

/-- C9 witness: a client holding handle 5 with kmap_cnt zero. -/
theorem ion_unmap_kernel_underflow_wraps_witness :
    (ion_unmap_kernel ⟨[5], fun _ => 0, 0, 0, 0, 0⟩ 5).s.hkmap 5 = U32 - 1 :=
  (ion_unmap_kernel_underflow_wraps ⟨[5], fun _ => 0, 0, 0, 0, 0⟩ 5
    (by decide) rfl).2.1

/-- C1 counterexample: handle 7 is not in the (empty) handle set of the
client, yet ion_unmap_kernel proceeds: it dereferences the buffer of
the handle and decrements its kmap counter (wrapping to 2^32 - 1)
instead of failing with an invalid-handle condition. -/
theorem ion_unmap_kernel_skips_validation :
    (ion_unmap_kernel ⟨[], fun _ => 0, 0, 0, 0, 0⟩ 7).deref = true ∧
    (ion_unmap_kernel ⟨[], fun _ => 0, 0, 0, 0, 0⟩ 7).s.hkmap 7 = U32 - 1 ∧
    (ion_unmap_kernel ⟨[], fun _ => 0, 0, 0, 0, 0⟩ 7).ret = .ok 0 := by
  refine ⟨rfl, ?_, rfl⟩
  show (ion_handle_kmap_put ⟨[], fun _ => 0, 0, 0, 0, 0⟩ 7).hkmap 7 = U32 - 1
  rw [ion_handle_kmap_put_hkmap]
  exact wrapDec_zero

/-- C1 amended: free, phys, map-kernel, sg-table and share all validate
the caller-supplied handle first and, when it is absent from the client
handle set, fail with an invalid-handle condition without dereferencing
the buffer of the handle; ion_unmap_kernel performs no validation: it
dereferences the buffer and decrements the kmap counter
unconditionally. -/
theorem ion_handle_validation (env : MapEnv) (s : MapState) (h : Nat)
    (hv : h ∉ s.handleSet) :
    ion_free s h = ⟨false, true, false⟩ ∧
    ion_phys env s h = ⟨.error (-EINVAL), s, false⟩ ∧
    ion_map_kernel env s h = ⟨.error (-EINVAL), s, false⟩ ∧
    ion_sg_table env s h = ⟨.error (-EINVAL), s, false⟩ ∧
    ion_share_dma_buf env s h = ⟨.error (-EINVAL), s, false⟩ ∧
    (ion_unmap_kernel s h).deref = true ∧
    (ion_unmap_kernel s h).s.hkmap h = wrapDec (s.hkmap h) := by
  refine ⟨?_, ?_, ?_, ?_, ?_, rfl, ion_handle_kmap_put_hkmap s h⟩ <;>
    simp [ion_free, ion_phys, ion_map_kernel, ion_sg_table, ion_share_dma_buf, hv]

/-- wrapInc of zero is one. -/
theorem wrapInc_zero : wrapInc 0 = 1 := by decide

/-- wrapInc of one is two. -/
theorem wrapInc_one : wrapInc 1 = 2 := by decide

/-- wrapDec of two is one. -/
theorem wrapDec_two : wrapDec 2 = 1 := rfl

/-- wrapDec of one is zero. -/
theorem wrapDec_one : wrapDec 1 = 0 := rfl

/-- Stepping lemma: ion_map_kernel on a validated handle with no
handle-level or buffer-level mapping invokes the heap map_kernel
operation, caches the returned address and sets both counts to one. -/
theorem ion_map_kernel_fresh (env : MapEnv) (s : MapState) (h : Nat)
    (hmem : h ∈ s.handleSet) (hop : env.hasMapKernel = true)
    (hh : s.hkmap h = 0) (hb : s.bkmap = 0)
    (hv : env.mapRet s.mapCalls ≠ 0) :
    (ion_map_kernel env s h).ret = .ok (env.mapRet s.mapCalls) ∧
    (ion_map_kernel env s h).s.hkmap h = 1 ∧
    (ion_map_kernel env s h).s.bkmap = 1 ∧
    (ion_map_kernel env s h).s.vaddr = env.mapRet s.mapCalls ∧
    (ion_map_kernel env s h).s.mapCalls = s.mapCalls + 1 ∧
    (ion_map_kernel env s h).s.unmapCalls = s.unmapCalls ∧
    (ion_map_kernel env s h).s.handleSet = s.handleSet := by
  unfold ion_map_kernel ion_handle_kmap_get ion_buffer_kmap_get
  simp [hmem, hop, hh, hb, hv, wrapInc_zero]

/-- Stepping lemma: ion_map_kernel on a validated handle that already
holds a mapping returns the cached address, bumps only the handle-level
count, and performs no heap call. -/
theorem ion_map_kernel_again (env : MapEnv) (s : MapState) (h : Nat)
    (hmem : h ∈ s.handleSet) (hop : env.hasMapKernel = true)
    (hh : s.hkmap h ≠ 0) :
    (ion_map_kernel env s h).ret = .ok s.vaddr ∧
    (ion_map_kernel env s h).s.hkmap h = wrapInc (s.hkmap h) ∧
    (ion_map_kernel env s h).s.bkmap = s.bkmap ∧
    (ion_map_kernel env s h).s.vaddr = s.vaddr ∧
    (ion_map_kernel env s h).s.mapCalls = s.mapCalls ∧
    (ion_map_kernel env s h).s.unmapCalls = s.unmapCalls ∧
    (ion_map_kernel env s h).s.handleSet = s.handleSet := by
  unfold ion_map_kernel ion_handle_kmap_get
  simp [hmem, hop, hh]

/-- Stepping lemma: ion_unmap_kernel when the handle-level count stays
positive decrements it and leaves the buffer-level mapping intact. -/
theorem ion_unmap_kernel_inner (s : MapState) (h : Nat)
    (hh : wrapDec (s.hkmap h) ≠ 0) :
    (ion_unmap_kernel s h).s.hkmap h = wrapDec (s.hkmap h) ∧
    (ion_unmap_kernel s h).s.bkmap = s.bkmap ∧
    (ion_unmap_kernel s h).s.vaddr = s.vaddr ∧
    (ion_unmap_kernel s h).s.mapCalls = s.mapCalls ∧
    (ion_unmap_kernel s h).s.unmapCalls = s.unmapCalls ∧
    (ion_unmap_kernel s h).s.handleSet = s.handleSet := by
  unfold ion_unmap_kernel ion_handle_kmap_put
  simp [hh]

/-- Stepping lemma: ion_unmap_kernel on the last handle-level mapping
releases the buffer-level mapping: the heap unmap_kernel operation runs
and the cached vaddr is cleared. -/
theorem ion_unmap_kernel_last (s : MapState) (h : Nat)
    (hh : s.hkmap h = 1) (hb : s.bkmap = 1) :
    (ion_unmap_kernel s h).s.hkmap h = 0 ∧
    (ion_unmap_kernel s h).s.bkmap = 0 ∧
    (ion_unmap_kernel s h).s.vaddr = 0 ∧
    (ion_unmap_kernel s h).s.mapCalls = s.mapCalls ∧
    (ion_unmap_kernel s h).s.unmapCalls = s.unmapCalls + 1 ∧
    (ion_unmap_kernel s h).s.handleSet = s.handleSet := by
  unfold ion_unmap_kernel ion_handle_kmap_put ion_buffer_kmap_put
  simp [hh, hb, wrapDec_one]

/-- C5: kernel mapping is two-level reference counted: on a buffer
with one validated handle, the first MapKernel invokes the heap
map-to-kernel operation and returns its non-null address; a second
MapKernel returns the same address without remapping and raises the
handle count to 2; after one UnmapKernel the buffer-level count is
still 1 and the heap unmap has not run; the second UnmapKernel drops
the buffer-level count to zero and invokes the heap unmap; a third
MapKernel invokes the heap mapping operation again. -/
theorem kmap_two_level_refcount (env : MapEnv) (hop : env.hasMapKernel = true)
    (h0 : env.mapRet 0 ≠ 0) (h1 : env.mapRet 1 ≠ 0) :
    (kmap_roundtrip env).1.ret = .ok (env.mapRet 0) ∧
    (kmap_roundtrip env).2.1.ret = .ok (env.mapRet 0) ∧
    (kmap_roundtrip env).2.1.s.hkmap 0 = 2 ∧
    (kmap_roundtrip env).2.1.s.mapCalls = 1 ∧
    (kmap_roundtrip env).2.2.1.s.hkmap 0 = 1 ∧
    (kmap_roundtrip env).2.2.1.s.bkmap = 1 ∧
    (kmap_roundtrip env).2.2.1.s.unmapCalls = 0 ∧
    (kmap_roundtrip env).2.2.2.1.s.hkmap 0 = 0 ∧
    (kmap_roundtrip env).2.2.2.1.s.bkmap = 0 ∧
    (kmap_roundtrip env).2.2.2.1.s.unmapCalls = 1 ∧
    (kmap_roundtrip env).2.2.2.2.ret = .ok (env.mapRet 1) ∧
    (kmap_roundtrip env).2.2.2.2.s.mapCalls = 2 := by
  obtain ⟨a1, a2, a3, a4, a5, a6, a7⟩ :=
    ion_map_kernel_fresh env kmap_start 0 (by simp [kmap_start]) hop rfl rfl h0
  obtain ⟨b1, b2, b3, b4, b5, b6, b7⟩ :=
    ion_map_kernel_again env (ion_map_kernel env kmap_start 0).s 0
      (by rw [a7]; simp [kmap_start]) hop (by rw [a2]; decide)
  rw [a2, wrapInc_one] at b2
  rw [a3] at b3
  rw [a4] at b4
  rw [a5] at b5
  rw [a6] at b6
  rw [a7] at b7
  obtain ⟨c1, c2, c3, c4, c5, c6⟩ :=
    ion_unmap_kernel_inner (ion_map_kernel env (ion_map_kernel env kmap_start 0).s 0).s 0
      (by rw [b2]; decide)
  rw [b2, wrapDec_two] at c1
  rw [b3] at c2
  rw [b5] at c4
  rw [b6] at c5
  rw [b7] at c6
  obtain ⟨d1, d2, d3, d4, d5, d6⟩ :=
    ion_unmap_kernel_last
      (ion_unmap_kernel (ion_map_kernel env (ion_map_kernel env kmap_start 0).s 0).s 0).s 0
      c1 c2
  rw [c4] at d4
  rw [c5] at d5
  rw [c6] at d6
  obtain ⟨e1, e2, e3, e4, e5, e6, e7⟩ :=
    ion_map_kernel_fresh env
      (ion_unmap_kernel
        (ion_unmap_kernel (ion_map_kernel env (ion_map_kernel env kmap_start 0).s 0).s 0).s 0).s 0
      (by rw [d6]; simp [kmap_start]) hop d1 d2 (by rw [d4]; exact h1)
  rw [d4] at e1 e5
  refine ⟨a1, ?_, b2, b5, c1, c2, ?_, d1, d2, ?_, e1, e5⟩
  · show (ion_map_kernel env (ion_map_kernel env kmap_start 0).s 0).ret =
      Except.ok (env.mapRet 0)
    rw [b1, a4]
    rfl
  · show (ion_unmap_kernel
        (ion_map_kernel env (ion_map_kernel env kmap_start 0).s 0).s 0).s.unmapCalls = 0
    rw [c5]
    rfl
  · show (ion_unmap_kernel (ion_unmap_kernel
        (ion_map_kernel env (ion_map_kernel env kmap_start 0).s 0).s 0).s 0).s.unmapCalls = 1
    rw [d5]
    rfl


/-- C5 witness: a concrete heap whose map_kernel always returns
address 1. -/
theorem kmap_two_level_refcount_witness :
    (kmap_roundtrip ⟨true, fun _ => 1, true, 0, 0, true⟩).2.1.s.hkmap 0 = 2 :=
  (kmap_two_level_refcount ⟨true, fun _ => 1, true, 0, 0, true⟩ rfl
    (by decide) (by decide)).2.2.1

/-- C1 witness: a concrete client with an empty handle set and handle
id 3. -/
theorem ion_handle_validation_witness :
    ion_free ⟨[], fun _ => 0, 0, 0, 0, 0⟩ 3 = ⟨false, true, false⟩ :=
  (ion_handle_validation ⟨true, fun _ => 1, true, 0, 0, true⟩
    ⟨[], fun _ => 0, 0, 0, 0, 0⟩ 3 (by decide)).1

/-- C4: when the reference count of a buffer drops to zero,
ion_buffer_put runs ion_buffer_destroy: the buffer is erased from the
device global index; if the owning heap has the deferred-free flag the
buffer is pushed onto that heap free list, the worker waitqueue is
woken and no teardown runs until a worker iteration pops it and tears
it down; otherwise the full synchronous teardown (unmap DMA, heap free,
release page array) runs on the releasing thread. -/
theorem ion_buffer_release (st : DevState) (b : Buf4) (href : b.ref = 1)
    (hnd : st.buffers.Nodup) :
    b.id ∉ (ion_buffer_put st b).1.buffers ∧
    (ion_buffer_put st b).1.buffers = st.buffers.erase b.id ∧
    (b.heapDefer = true →
       (ion_buffer_put st b).1.freeList = b :: st.freeList ∧
       (ion_buffer_put st b).1.woken = true ∧
       (ion_buffer_put st b).1.torn = st.torn ∧
       (ion_heap_deferred_free_step (ion_buffer_put st b).1).freeList = st.freeList ∧
       (ion_heap_deferred_free_step (ion_buffer_put st b).1).torn =
         (b.id, ion_buffer_teardown b) :: st.torn) ∧
    (b.heapDefer = false →
       (ion_buffer_put st b).1.torn = (b.id, ion_buffer_teardown b) :: st.torn ∧
       (ion_buffer_put st b).1.freeList = st.freeList ∧
       (ion_buffer_put st b).1.woken = st.woken) ∧
    (ion_buffer_teardown b).dmaUnmapped = true ∧
    (ion_buffer_teardown b).heapFreed = true ∧
    (ion_buffer_teardown b).pagesFreed = b.hasPages := by
  unfold ion_buffer_put ion_buffer_destroy ion_heap_deferred_free_step ion_buffer_teardown
  rw [if_pos href]
  cases hd : b.heapDefer <;>
    simp [hd, List.Nodup.not_mem_erase hnd]

/-- C4 witness: a deferred-free buffer of id 2 with reference count
one, in a device whose index holds buffers 1 and 2. -/
theorem ion_buffer_release_witness :
    (2 : Nat) ∉ (ion_buffer_put ⟨[1, 2], [], false, []⟩ ⟨2, 1, 0, false, true⟩).1.buffers :=
  (ion_buffer_release ⟨[1, 2], [], false, []⟩ ⟨2, 1, 0, false, true⟩ rfl
    (by decide)).1

/-- bumpFirst preserves the length of the handle list: no handle is
created or destroyed. -/
theorem bumpFirst_length (l : List Bridge.Handle) (b : Nat) :
    (Bridge.bumpFirst l b).length = l.length := by
  induction l with
  | nil => rfl
  | cons h t ih =>
    unfold Bridge.bumpFirst
    split
    · rfl
    · simp [ih]

/-- When the client already holds a handle for buffer b, bumpFirst
increments the reference count of exactly that handle (the first
match), leaving every other element unchanged. -/
theorem bumpFirst_spec (l : List Bridge.Handle) (b : Nat) (h0 : Bridge.Handle)
    (hf : l.find? (fun h => h.buffer == b) = some h0) :
    ∃ l1 l2, l = l1 ++ h0 :: l2 ∧
      Bridge.bumpFirst l b = l1 ++ { h0 with ref := h0.ref + 1 } :: l2 := by
  induction l with
  | nil => simp at hf
  | cons h t ih =>
    by_cases hb : h.buffer == b
    · rw [@List.find?_cons_of_pos _ (fun x => x.buffer == b) h t hb] at hf
      obtain rfl : h = h0 := by simpa using hf
      refine ⟨[], t, rfl, ?_⟩
      unfold Bridge.bumpFirst
      rw [if_pos hb]
      rfl
    · rw [@List.find?_cons_of_neg _ (fun x => x.buffer == b) h t (by simpa using hb)] at hf
      obtain ⟨l1, l2, he, hbump⟩ := ih hf
      refine ⟨h :: l1, l2, by rw [he]; rfl, ?_⟩
      unfold Bridge.bumpFirst
      rw [if_neg hb, hbump]
      rfl

/-- C6: exporting a validated handle wraps exactly its buffer in a
descriptor tagged as produced by this bridge; importing that descriptor
into a client with no handle for the buffer creates and indexes a new
handle wrapping the identical buffer; importing it into a client that
already holds a handle for the buffer returns that handle with its
reference count incremented, adding no second handle. -/
theorem ion_share_import_roundtrip
    (A B C : Bridge.Client) (hid newId : Nat) (hA : Bridge.Handle)
    (hshare : A.handles.find? (fun h => h.id == hid) = some hA)
    (hB : Bridge.ion_handle_lookup B hA.buffer = none)
    (h0 : Bridge.Handle) (hC : Bridge.ion_handle_lookup C hA.buffer = some h0) :
    Bridge.ion_share_dma_buf A hid = .ok ⟨true, hA.buffer⟩ ∧
    (Bridge.ion_import_dma_buf B ⟨true, hA.buffer⟩ newId).1 = .ok newId ∧
    (Bridge.ion_import_dma_buf B ⟨true, hA.buffer⟩ newId).2.handles =
      B.handles ++ [⟨newId, hA.buffer, 1⟩] ∧
    (Bridge.ion_import_dma_buf C ⟨true, hA.buffer⟩ newId).1 = .ok h0.id ∧
    (∃ l1 l2, C.handles = l1 ++ h0 :: l2 ∧
      (Bridge.ion_import_dma_buf C ⟨true, hA.buffer⟩ newId).2.handles =
        l1 ++ { h0 with ref := h0.ref + 1 } :: l2) ∧
    (Bridge.ion_import_dma_buf C ⟨true, hA.buffer⟩ newId).2.handles.length =
      C.handles.length := by
  refine ⟨?_, ?_, ?_, ?_, ?_, ?_⟩
  · unfold Bridge.ion_share_dma_buf
    rw [hshare]
  · unfold Bridge.ion_import_dma_buf
    rw [hB]
    rfl
  · unfold Bridge.ion_import_dma_buf
    rw [hB]
    rfl
  · unfold Bridge.ion_import_dma_buf
    rw [hC]
    rfl
  · obtain ⟨l1, l2, he, hbump⟩ := bumpFirst_spec C.handles hA.buffer h0 hC
    refine ⟨l1, l2, he, ?_⟩
    unfold Bridge.ion_import_dma_buf
    rw [hC]
    exact hbump
  · show (Bridge.ion_import_dma_buf C ⟨true, hA.buffer⟩ newId).2.handles.length =
      C.handles.length
    unfold Bridge.ion_import_dma_buf
    rw [hC]
    exact bumpFirst_length C.handles hA.buffer

/-- C6 witness: client A holds handle 1 on buffer 9; B is empty; C
already holds handle 3 on buffer 9 with reference count 2. -/
theorem ion_share_import_roundtrip_witness :
    Bridge.ion_share_dma_buf ⟨[⟨1, 9, 1⟩]⟩ 1 = .ok ⟨true, 9⟩ :=
  (ion_share_import_roundtrip ⟨[⟨1, 9, 1⟩]⟩ ⟨[]⟩ ⟨[⟨3, 9, 2⟩]⟩ 1 4 ⟨1, 9, 1⟩
    rfl rfl ⟨3, 9, 2⟩ rfl).1

/-- Unfolding lemma: the per-set count over a cons cell. -/
theorem countBufL_cons (h : HRec) (l : List HRec) (b : Nat) :
    countBufL (h :: l) b = countBufL l b + (if h.buf = b then 1 else 0) := by
  simp [countBufL, List.countP_cons]

/-- Appending a fresh client with an empty handle set changes no
buffer handle count. -/
theorem countBufW_append_nil (cs : List (List HRec)) (b : Nat) :
    countBufW (cs ++ [[]]) b = countBufW cs b := by
  induction cs with
  | nil => rfl
  | cons c t ih => simp [countBufW, ih]

/-- Indexing a new handle into an existing client adds one to the
count of its buffer and nothing to any other count. -/
theorem countBufW_addToClient (cs : List (List HRec)) (ci : Nat) (h : HRec)
    (b : Nat) (hci : ci < cs.length) :
    countBufW (addToClient cs ci h) b =
      countBufW cs b + (if h.buf = b then 1 else 0) := by
  induction cs generalizing ci with
  | nil => simp at hci
  | cons c t ih =>
    cases ci with
    | zero =>
      show countBufL (h :: c) b + countBufW t b = _
      rw [countBufL_cons]
      show _ = countBufL c b + countBufW t b + _
      omega
    | succ n =>
      show countBufL c b + countBufW (addToClient t n h) b = _
      rw [ih n (by simpa using hci)]
      show _ = countBufL c b + countBufW t b + _
      omega

/-- Removing the first handle with a given id from a handle set lowers
the count of its buffer by one and no other count. -/
theorem removeFirst_count (l : List HRec) (hid : Nat) (h : HRec)
    (rest : List HRec) (b : Nat)
    (hr : removeFirst l hid = some (h, rest)) :
    countBufL l b = countBufL rest b + (if h.buf = b then 1 else 0) := by
  induction l generalizing rest with
  | nil => simp [removeFirst] at hr
  | cons hh t ih =>
    unfold removeFirst at hr
    by_cases he : hh.hid = hid
    · rw [if_pos he] at hr
      obtain ⟨rfl, rfl⟩ : hh = h ∧ t = rest := by simpa using hr
      rw [countBufL_cons]
    · rw [if_neg he] at hr
      cases hr2 : removeFirst t hid with
      | none => rw [hr2] at hr; simp at hr
      | some r =>
        rw [hr2] at hr
        obtain ⟨rfl, rfl⟩ : r.1 = h ∧ hh :: r.2 = rest := by simpa using hr
        have hrec := ih r.2 (by rw [hr2])
        rw [countBufL_cons, countBufL_cons, hrec]
        omega

/-- Removing the first handle with a given id from client ci lowers
the count of its buffer by one across all clients. -/
theorem removeFromClient_count (cs : List (List HRec)) (ci hid : Nat)
    (h : HRec) (cs2 : List (List HRec)) (b : Nat)
    (hr : removeFromClient cs ci hid = (some h, cs2)) :
    countBufW cs b = countBufW cs2 b + (if h.buf = b then 1 else 0) := by
  induction cs generalizing ci cs2 with
  | nil => simp [removeFromClient] at hr
  | cons c t ih =>
    cases ci with
    | zero =>
      unfold removeFromClient at hr
      cases hr2 : removeFirst c hid with
      | none => rw [hr2] at hr; simp at hr
      | some r =>
        rw [hr2] at hr
        obtain ⟨rfl, rfl⟩ : r.1 = h ∧ r.2 :: t = cs2 := by simpa using hr
        have hrec := removeFirst_count c hid r.1 r.2 b hr2
        show countBufL c b + countBufW t b = countBufL r.2 b + countBufW t b + _
        omega
    | succ n =>
      unfold removeFromClient at hr
      cases hr2 : removeFromClient t n hid with
      | mk o rest =>
        rw [hr2] at hr
        obtain ⟨rfl, rfl⟩ : o = some h ∧ c :: rest = cs2 := by
          simpa using hr
        have hrec := ih n rest hr2
        show countBufL c b + countBufW t b = countBufL c b + countBufW rest b + _
        omega

/-- Every reachable world satisfies the handle-count invariant. -/
theorem reach_inv {w : World} (hr : Reach w) : Inv w := by
  induction hr with
  | init => intro b; rfl
  | @newClient w0 _ ih =>
    intro b
    show w0.hcount b = countBufW (w0.clients ++ [[]]) b
    rw [countBufW_append_nil]
    exact ih b
  | @create w0 ci h hci _ ih =>
    intro b
    show (ion_handle_create_add w0 ci h).hcount b = _
    unfold ion_handle_create_add ion_buffer_add_to_handle
    simp only
    rw [countBufW_addToClient _ _ _ _ hci]
    by_cases hb : b = h.buf
    · subst hb
      simp [ih h.buf]
    · rw [if_neg hb, if_neg (fun he => hb he.symm), ih b]
      omega
  | @destroy w0 ci hid _ ih =>
    show Inv (ion_handle_destroy w0 ci hid)
    unfold ion_handle_destroy
    cases hrm : removeFromClient w0.clients ci hid with
    | mk o cs2 =>
      cases o with
      | none => exact ih
      | some h =>
        intro b
        unfold ion_buffer_remove_from_handle
        simp only
        have hc := removeFromClient_count w0.clients ci hid h cs2 b hrm
        have hcs : w0.hcount h.buf = countBufW cs2 h.buf + 1 := by
          have := removeFromClient_count w0.clients ci hid h cs2 h.buf hrm
          rw [ih h.buf]
          simpa using this
        by_cases hb : b = h.buf
        · subst hb
          rw [if_pos rfl, if_pos (by omega)]
          omega
        · rw [if_neg hb, ih b, hc, if_neg (fun he => hb he.symm)]
          omega

/-- A handle present in a handle set contributes to the count of its
buffer. -/
theorem countBufL_pos (l : List HRec) (hd : HRec) (hm : hd ∈ l) :
    0 < countBufL l hd.buf :=
  List.countP_pos_iff.mpr ⟨hd, hm, by simp⟩

/-- A handle present in the handle set of client ci contributes to the
global count of its buffer. -/
theorem countBufW_pos (cs : List (List HRec)) (ci : Nat) (hd : HRec)
    (hm : hd ∈ cs.getD ci []) : 0 < countBufW cs hd.buf := by
  induction cs generalizing ci with
  | nil => simp at hm
  | cons c t ih =>
    cases ci with
    | zero =>
      have h1 := countBufL_pos c hd (by simpa using hm)
      show 0 < countBufL c hd.buf + countBufW t hd.buf
      omega
    | succ n =>
      have h1 := ih n (by simpa using hm)
      show 0 < countBufL c hd.buf + countBufW t hd.buf
      omega

/-- The proportional-share accumulator of ion_debug_heap_total is the
sum of each matching buffer size divided by its entry in
pssDivisorsUsed. -/
theorem ion_debug_heap_total_pss (w : World) (bufSize heapOf : Nat → Nat)
    (id : Nat) (l : List HRec) :
    (ion_debug_heap_total_go w bufSize heapOf id l).2.2 =
      ((l.filter (fun h => heapOf h.buf == id)).map
        (fun h => bufSize h.buf / w.hcount h.buf)).sum := by
  induction l with
  | nil => rfl
  | cons h t ih =>
    unfold ion_debug_heap_total_go
    dsimp only
    by_cases hh : (heapOf h.buf == id) = true
    · rw [if_pos hh, @List.filter_cons_of_pos _ (fun x => heapOf x.buf == id) h t hh]
      simp only [List.map_cons, List.sum_cons, ih]
      omega
    · rw [if_neg hh, @List.filter_cons_of_neg _ (fun x => heapOf x.buf == id) h t
        (by simpa using hh)]
      exact ih

/-- C10: in every reachable world, every buffer reachable through the
handle set of some client has handle_count at least one, so every
divisor that ion_debug_heap_total uses in its proportional-share
divisions is positive and the division is never by zero (the divisors
of ion_debug_heap_total are exactly pssDivisorsUsed, by
ion_debug_heap_total_pss). -/
theorem ion_debug_heap_total_div_safe (w : World) (hr : Reach w)
    (heapOf : Nat → Nat) (ci id : Nat) :
    (∀ hd ∈ w.clients.getD ci [], 0 < w.hcount hd.buf) ∧
    ∀ d ∈ pssDivisorsUsed w heapOf ci id, 0 < d := by
  have hinv := reach_inv hr
  have hmem : ∀ hd ∈ w.clients.getD ci [], 0 < w.hcount hd.buf := by
    intro hd hm
    rw [hinv hd.buf]
    exact countBufW_pos w.clients ci hd hm
  refine ⟨hmem, ?_⟩
  intro d hdm
  unfold pssDivisorsUsed at hdm
  obtain ⟨hd, hmf, rfl⟩ := List.mem_map.mp hdm
  exact hmem hd (List.mem_of_mem_filter hmf)

/-- C10 witness: a world with one client holding one handle on
buffer 5, reached from the empty world; the handle count of buffer 5 is
positive. -/
theorem ion_debug_heap_total_div_safe_witness :
    0 < (ion_handle_create_add
        { World.empty with clients := World.empty.clients ++ [[]] } 0 ⟨0, 5⟩).hcount 5 :=
  (ion_debug_heap_total_div_safe _
    (Reach.create 0 ⟨0, 5⟩ (by simp [World.empty]) (Reach.newClient Reach.init))
    (fun _ => 0) 0 0).1 ⟨0, 5⟩ (by decide)

end Ion
